import Mathlib

/-
Verification of the fingerprint-converter media-processing service.

The Go sources are shallowly embedded in Lean:
* machine integers (Go `int64`) are modelled as natural-number bit
  patterns reduced modulo `2 ^ 64` where overflow matters; sizes and
  time instants (nanoseconds) are `Int`; `time.Time.After a b` is
  strict `a > b` as in Go;
* the in-memory map of `TempStorage` is an association list
  `List (String × TempFile)`; the scratch directory is the list of
  existing file paths, with `os.Remove` modelled as `List.filter`
  (removal of a missing file is tolerated, as the Go code tolerates
  `os.IsNotExist`);
* fallible operations return `Except`/`Option`, and operations whose
  outcome depends on the outside world (HTTP responses, `ffmpeg` exit
  status, `crypto/rand`) take those outcomes as explicit parameters;
* byte strings are `List Nat`, Go strings are `String` (compared and
  searched byte-wise exactly as `strings.Contains`/`ToLower` do on
  ASCII data).
-/

set_option autoImplicit false

namespace Fingerprint

/-! ## Nonce engine (services/nonce.go)

`ProcessingNonce` carries the creation timestamp (an `int64` of
nanoseconds, modelled by its `Nat` bit pattern), the hex-encoded random
component, and the combined nonce string.  The nonce string is modelled
as its byte list, since `GetSeedForRand` iterates over `[]byte(n.Nonce)`.
-/

structure ProcessingNonce where
  timestamp : Nat
  random : List Nat
  nonce : List Nat
  deriving DecidableEq, Repr

/-- Bit width of Go `int64` arithmetic. -/
def i64Mod : Nat := 2 ^ 64

/-- The hash loop of `GetSeedForRand`:
`hash = 0; for b in nonce: hash = hash*31 + int64(b)`,
with `int64` wrap-around made explicit. -/
def nonceHash (bytes : List Nat) : Nat :=
  bytes.foldl (fun h b => (h * 31 + b) % i64Mod) 0

/-- Go `func (n *ProcessingNonce) GetSeedForRand() int64`:
returns `n.Timestamp ^ hash` (bitwise XOR on the 64-bit patterns). -/
def ProcessingNonce.getSeedForRand (n : ProcessingNonce) : Nat :=
  Nat.xor (n.timestamp % i64Mod) (nonceHash n.nonce)

/-- Specification-style polynomial value of a byte string in base 31:
`b0 * 31 ^ (k-1) + b1 * 31 ^ (k-2) + ... + b(k-1)`.  This is the
definition the spec describes in words; the theorems relate it to the
hash loop actually implemented. -/
def polyVal31 : List Nat → Nat
  | [] => 0
  | b :: t => b * 31 ^ t.length + polyVal31 t

/-! ## Ephemeral store (storage/temp_storage.go)

`TempStorage` holds the id-to-`TempFile` map (association list), the
set of files existing in the scratch directory (`disk`), the TTL and
the period of the cleanup ticker, both in nanoseconds.  `os.Remove` is
`osRemove`; a missing file is a no-op exactly as the Go code treats
`os.IsNotExist` as a non-error (neither `scheduleDeletion` nor
`cleanup` has an error result).  `os.Stat` in `Store` succeeds iff the
path is on `disk`.
-/

structure TempFile where
  id : String
  path : String
  originalPath : String
  mediaType : String
  createdAt : Int
  expiresAt : Int
  size : Int
  deriving DecidableEq, Repr

structure TempStorage where
  files : List (String × TempFile)
  disk : List String
  ttl : Int
  cleanupInterval : Int
  deriving DecidableEq, Repr

/-- One minute in nanoseconds (the fixed period of the cleanup ticker). -/
def minuteNs : Int := 60 * 1000000000

/-- Go `func NewTempStorage(baseDir string, ttl time.Duration)`:
a non-positive TTL is replaced by 10 minutes, and the cleanup ticker is
started with a fixed 1-minute period (`time.NewTicker(1 * time.Minute)`). -/
def newTempStorage (ttl : Int) : TempStorage :=
  { files := []
    disk := []
    ttl := if ttl ≤ 0 then 10 * minuteNs else ttl
    cleanupInterval := minuteNs }

/-- Go `os.Remove`: the path no longer exists afterwards; removing a
missing path reports `IsNotExist`, which every caller in the store
tolerates, so no error is modelled. -/
def osRemove (disk : List String) (p : String) : List String :=
  disk.filter (fun q => q != p)

inductive GetResult where
  | found (tf : TempFile)
  | notFound
  | expired
  deriving DecidableEq, Repr

/-- Access `files[id]` of the Go map, on the association-list model. -/
def lookupId {β : Type} (key : String) : List (String × β) → Option β
  | [] => none
  | e :: t => if e.1 = key then some e.2 else lookupId key t

/-- Go `func (ts *TempStorage) Get(id string)`: looks the id up under a
read lock and rejects entries whose expiry has passed
(`time.Now().After(tf.ExpiresAt)`, strict).  The store is returned
unchanged: the Go body performs no writes. -/
def TempStorage.get (ts : TempStorage) (id : String) (now : Int) :
    GetResult × TempStorage :=
  match lookupId id ts.files with
  | none => (GetResult.notFound, ts)
  | some tf => if tf.expiresAt < now then (GetResult.expired, ts) else (GetResult.found tf, ts)

/-- Go `func (ts *TempStorage) Store(filePath, originalPath, mediaType string)`:
stats the artifact (fails when missing), records the entry with
`CreatedAt = now` and `ExpiresAt = now + ttl`, and inserts it under the
freshly generated id (`crypto/rand`, supplied here as a parameter).
The scheduled one-shot deletion it spawns is `scheduleDeletion` below. -/
def TempStorage.store (ts : TempStorage) (filePath originalPath mediaType : String)
    (id : String) (now size : Int) : Except String (String × TempStorage) :=
  if filePath ∈ ts.disk then
    let tf : TempFile :=
      { id := id, path := filePath, originalPath := originalPath, mediaType := mediaType
        createdAt := now, expiresAt := now + ts.ttl, size := size }
    Except.ok (id, { ts with files := (id, tf) :: ts.files.filter (fun e => e.1 != id) })
  else
    Except.error "failed to stat file"

/-- Go `func (ts *TempStorage) scheduleDeletion(id, filePath, originalPath, ttl)`,
the part after `time.Sleep(ttl)`: removes the map entry, deletes the
processed file, and deletes the original file when it is distinct and
non-empty. -/
def TempStorage.scheduleDeletion (ts : TempStorage) (id filePath originalPath : String) :
    TempStorage :=
  let files := ts.files.filter (fun e => e.1 != id)
  let disk := osRemove ts.disk filePath
  let disk := if originalPath != "" && originalPath != filePath then
    osRemove disk originalPath else disk
  { ts with files := files, disk := disk }

/-- File deletions performed by `cleanup` for one expired entry. -/
def cleanupRemoveFiles (disk : List String) (tf : TempFile) : List String :=
  let disk := osRemove disk tf.path
  if tf.originalPath != "" && tf.originalPath != tf.path then
    osRemove disk tf.originalPath else disk

/-- Go `func (ts *TempStorage) cleanup()`: under the lock, removes every
map entry whose `ExpiresAt` lies strictly in the past, then (outside
the lock) deletes the files of each removed entry. -/
def TempStorage.cleanup (ts : TempStorage) (now : Int) : TempStorage :=
  let expiredFiles := (ts.files.filter (fun e => decide (e.2.expiresAt < now))).map (·.2)
  let files := ts.files.filter (fun e => ! decide (e.2.expiresAt < now))
  let disk := expiredFiles.foldl cleanupRemoveFiles ts.disk
  { ts with files := files, disk := disk }

/-! ## Downloader (services/downloader.go)

An HTTP exchange is a status code, the declared `Content-Length`
(`-1` when the remote declares none, as in `net/http`), and the byte
sequence the connection actually delivers.  When a length `L ≥ 0` is
declared, `net/http` bounds the body reader by `L`, so a faithful
response never delivers more than `L` bytes; theorems that need this
carry it as a hypothesis.  `downloadWithValidation` also reports how
many body bytes it consumed.
-/

structure HttpResponse where
  statusCode : Int
  contentLength : Int
  body : List Nat
  deriving DecidableEq, Repr

inductive DlError where
  | requestFailed (msg : String)
  | httpStatus (code : Int)
  | tooLargeDeclared (size max : Int)
  | tooLargeRead (size max : Int)
  | incompleteRead (expected got : Int)
  | incompletePartial (expected got : Int)
  | emptyFile
  | tooSmall (size : Int)
  | videoValidation (msg : String)
  deriving DecidableEq, Repr

/-- The exact `fmt.Errorf` message of each downloader error, used by the
retry loop for classification. -/
def dlErrorMessage : DlError → String
  | DlError.requestFailed m => "download failed: " ++ m
  | DlError.httpStatus c => "download failed: HTTP " ++ toString c
  | DlError.tooLargeDeclared s m =>
      "file too large: " ++ toString s ++ " bytes (max: " ++ toString m ++ ")"
  | DlError.tooLargeRead s m =>
      "file too large: " ++ toString s ++ " bytes (max: " ++ toString m ++ ")"
  | DlError.incompleteRead e g =>
      "incomplete download: expected " ++ toString e ++ " bytes, got " ++ toString g
        ++ " bytes (connection interrupted)"
  | DlError.incompletePartial e g =>
      "incomplete download: expected " ++ toString e ++ " bytes, got " ++ toString g
        ++ " bytes (partial file)"
  | DlError.emptyFile => "downloaded file is empty"
  | DlError.tooSmall s => "file too small: " ++ toString s ++ " bytes (likely corrupted or empty)"
  | DlError.videoValidation m => "video validation failed: " ++ m
      ++ " (file may be corrupted or truncated)"

/-- Go `strings.ToLower` on ASCII data. -/
def strToLower (s : String) : String :=
  String.mk (s.toList.map Char.toLower)

/-- Whether `pat` occurs as a contiguous run inside `hay`. -/
def listContainsSub (hay pat : List Char) : Bool :=
  match hay with
  | [] => pat.isEmpty
  | c :: t => pat.isPrefixOf (c :: t) || listContainsSub t pat

/-- Go `strings.Contains hay pat`. -/
def containsSubstr (hay pat : String) : Bool :=
  listContainsSub hay.toList pat.toList

/-- Go `strings.HasSuffix`. -/
def strEndsWith (s suf : String) : Bool :=
  suf.toList.isSuffixOf s.toList

/-- Go `strings.HasPrefix`. -/
def strStartsWith (s pre : String) : Bool :=
  pre.toList.isPrefixOf s.toList

/-- The `retryableErrors` table of `isRetryableError`, verbatim.  Note
the entry `"EOF"` is upper-case although it is matched against a
lower-cased message. -/
def retryableErrors : List String :=
  ["connection reset", "connection refused", "timeout", "deadline exceeded",
   "temporary failure", "EOF", "broken pipe", "incomplete download",
   "connection interrupted"]

/-- Go `func isRetryableError(err error) bool`:
`strings.Contains(strings.ToLower(errStr), retryable)` over the table. -/
def isRetryableError (err : String) : Bool :=
  retryableErrors.any (fun r => containsSubstr (strToLower err) r)

/-- Go `func isVideoURL(url string) bool`. -/
def isVideoURL (url : String) : Bool :=
  let urlLower := strToLower url
  strEndsWith urlLower ".mp4" || strEndsWith urlLower ".avi" ||
  strEndsWith urlLower ".mov" || strEndsWith urlLower ".mkv" ||
  strEndsWith urlLower ".webm"

/-- Go `func validateVideoData(data []byte) error`: requires at least 32
bytes and an `ftyp` signature within the first 32 bytes. -/
def validateVideoData (data : List Nat) : Except String Unit :=
  if data.length < 32 then
    Except.error ("file too small to be valid video: " ++ toString data.length ++ " bytes")
  else if (List.range 32).any
      (fun i => decide (i + 4 ≤ data.length) && ((data.drop i).take 4 == [102, 116, 121, 112])) then
    Except.ok ()
  else
    Except.error "invalid MP4 header: missing ftyp box (file may be corrupted)"

/-- The read phase of `downloadWithValidation`: with a positive
declared length, either `io.ReadFull` into a pool buffer of exactly the
declared size (when the declared length fits the pool's `Allocated`
figure) or `io.ReadAll(io.LimitReader(body, maxSize+1))` followed by
the exact-length and ceiling checks; with no declared length,
`io.ReadAll` bounded by `maxSize+1` and the ceiling check.  The second
component counts body bytes consumed. -/
def readPhase (maxSize poolAllocated : Int) (r : HttpResponse) :
    Except DlError (List Nat) × Nat :=
  if 0 < r.contentLength then
    let expectedSize := r.contentLength.toNat
    if r.contentLength ≤ poolAllocated then
      let n := min r.body.length expectedSize
      if n < expectedSize then
        (Except.error (DlError.incompleteRead r.contentLength n), n)
      else (Except.ok (r.body.take expectedSize), n)
    else
      let data := r.body.take (maxSize.toNat + 1)
      if (data.length : Int) ≠ r.contentLength then
        (Except.error (DlError.incompletePartial r.contentLength data.length), data.length)
      else if maxSize < (data.length : Int) then
        (Except.error (DlError.tooLargeRead data.length maxSize), data.length)
      else (Except.ok data, data.length)
  else
    let data := r.body.take (maxSize.toNat + 1)
    if maxSize < (data.length : Int) then
      (Except.error (DlError.tooLargeRead data.length maxSize), data.length)
    else (Except.ok data, data.length)

/-- The validation tail of `downloadWithValidation`: non-empty check,
100-byte minimum, and MP4 structural validation for video URLs with a
declared length. -/
def postReadChecks (url : String) (contentLength : Int)
    (read : Except DlError (List Nat) × Nat) : Except DlError (List Nat) × Nat :=
  match read with
  | (Except.error e, n) => (Except.error e, n)
  | (Except.ok data, n) =>
    if data.length = 0 then (Except.error DlError.emptyFile, n)
    else if data.length < 100 then (Except.error (DlError.tooSmall data.length), n)
    else if 0 < contentLength ∧ isVideoURL url then
      match validateVideoData data with
      | Except.error m => (Except.error (DlError.videoValidation m), n)
      | Except.ok _ => (Except.ok data, n)
    else (Except.ok data, n)

/-- Go `func (d *Downloader) downloadWithValidation(ctx, url, attempt)`.
`poolAllocated` is `d.bufferPool.GetStats().Allocated`: status check,
declared-length ceiling check before any read, then the read phase and
the validation tail. -/
def downloadWithValidation (maxSize poolAllocated : Int) (url : String)
    (resp : Except String HttpResponse) : Except DlError (List Nat) × Nat :=
  match resp with
  | Except.error e => (Except.error (DlError.requestFailed e), 0)
  | Except.ok r =>
    if r.statusCode ≠ 200 then (Except.error (DlError.httpStatus r.statusCode), 0)
    else if maxSize < r.contentLength then
      (Except.error (DlError.tooLargeDeclared r.contentLength maxSize), 0)
    else postReadChecks url r.contentLength (readPhase maxSize poolAllocated r)

/-- Result of one run of `Downloader.Download`: the outcome, the number
of attempts performed, and the backoff sleeps (in seconds, as multiples
of the 1-second base delay from `time.Sleep(attempt * time.Second)`). -/
structure DownloadRun where
  result : Except String (List Nat)
  attemptsUsed : Nat
  sleepsSec : List Nat
  deriving Repr

/-- Go `func (d *Downloader) Download(ctx, url)`: scheme validation, then
up to 3 attempts; a non-retryable error returns immediately; between
retried attempts it sleeps `attempt` seconds (1s then 2s); after the
third failed retryable attempt the last error is wrapped.  The outcome
of attempt `k` (that is, `downloadWithValidation` on that attempt's
response, rendered to its message string) is `attempt k`. -/
def download (url : String) (attempt : Nat → Except String (List Nat)) : DownloadRun :=
  if url = "" then ⟨Except.error "empty URL", 0, []⟩
  else if ¬ (strStartsWith url "http://" || strStartsWith url "https://") then
    ⟨Except.error "invalid URL scheme: must be http:// or https://", 0, []⟩
  else
    match attempt 1 with
    | Except.ok d => ⟨Except.ok d, 1, []⟩
    | Except.error e1 =>
      if ¬ isRetryableError e1 then ⟨Except.error e1, 1, []⟩
      else
        match attempt 2 with
        | Except.ok d => ⟨Except.ok d, 2, [1]⟩
        | Except.error e2 =>
          if ¬ isRetryableError e2 then ⟨Except.error e2, 2, [1]⟩
          else
            match attempt 3 with
            | Except.ok d => ⟨Except.ok d, 3, [1, 2]⟩
            | Except.error e3 =>
              if ¬ isRetryableError e3 then ⟨Except.error e3, 3, [1, 2]⟩
              else ⟨Except.error ("download failed after 3 attempts: " ++ e3), 3, [1, 2]⟩

/-! ## Script-technique converters (services/audio_converter.go,
image_converter.go, video_converter.go)

The `ConvertWithScriptTechniques` functions each call `GenerateNonce()`
once and derive every randomized parameter from a `math/rand` generator
freshly seeded with `nonce.GetSeedForRand()` and from the nonce's own
fields; the process-wide generator seeded in `init()` is not consulted.
Go's generator algorithm is abstracted: `mk seed` is the determinstic
draw stream of a local generator with that seed (`intn i b` is the
`i`-th draw of `Intn(b)`, `float i` the `i`-th draw of `Float64()`).
`GenerateNonce()` is nondeterministic (`crypto/rand`), so an operation
consumes nonces from an explicit supply; the shared global generator is
an opaque state value threaded through each operation. -/

structure LocalGen where
  intn : Nat → Nat → Nat
  float : Nat → Rat

/-- Bytes of the metadata string `fmt.Sprintf("uid:%s", nonce.Nonce)`. -/
def uidBytes (n : ProcessingNonce) : List Nat :=
  [117, 105, 100, 58] ++ n.nonce

structure AudioScriptParams where
  delayMs : Nat
  volume : Rat
  title : List Nat
  deriving DecidableEq, Repr

/-- Parameter derivation of `AudioConverter.ConvertWithScriptTechniques`:
delay 1-50 ms and volume micro-variation, both from the nonce-seeded
local generator plus timestamp micro-variations. -/
def audioScriptParams (mk : Nat → LocalGen) (n : ProcessingNonce) : AudioScriptParams :=
  let localRand := mk n.getSeedForRand
  let delayMs := 1 + localRand.intn 0 50
  let delayMs := delayMs + n.timestamp % 10
  let delayMs := if 50 < delayMs then 50 else delayMs
  let volume : Rat := 99 / 100 + localRand.float 1 * (2 / 100)
  let volume := volume + (n.timestamp % 100 : Nat) / 100000
  { delayMs := delayMs, volume := volume, title := uidBytes n }

structure ImageScriptParams where
  lsbDeltas : List Nat
  cropPixels : Nat
  gamma : Rat
  comment : List Nat
  deriving DecidableEq, Repr

/-- Parameter derivation of `ImageConverter.ConvertWithScriptTechniques`:
for JPEG/PNG input, `modifyImageLSBWithNonce` draws nine `Intn(2)`
values from a second local generator seeded with the same nonce seed;
then crop and gamma come from the first local generator plus timestamp
micro-variations. -/
def imageScriptParams (mk : Nat → LocalGen) (inputFormat : String)
    (n : ProcessingNonce) : ImageScriptParams :=
  let localRand := mk n.getSeedForRand
  let lsbDeltas :=
    if inputFormat = "jpeg" ∨ inputFormat = "png" then
      let lsbRand := mk n.getSeedForRand
      (List.range 9).map (fun i => lsbRand.intn i 2)
    else []
  let cropPixels := 1 + localRand.intn 0 2
  let cropVariation := n.timestamp % 3
  let cropPixels := (cropPixels + cropVariation) % 3
  let cropPixels := if cropPixels = 0 then 1 else cropPixels
  let gamma : Rat := 995 / 1000 + localRand.float 1 * (10 / 1000)
  let gamma := gamma + (n.timestamp % 1000 : Nat) / 1000000
  let gamma := if 1005 / 1000 < gamma then 1005 / 1000 else gamma
  { lsbDeltas := lsbDeltas, cropPixels := cropPixels, gamma := gamma, comment := uidBytes n }

structure VideoScriptParams where
  cropPixels : Nat
  gamma : Rat
  boxX : Nat
  boxY : Nat
  title : List Nat
  deriving DecidableEq, Repr

/-- Parameter derivation of `VideoConverter.ConvertWithScriptTechniques`:
crop, gamma and the 1x1 drawbox position, from the nonce-seeded local
generator and timestamp micro-variations. -/
def videoScriptParams (mk : Nat → LocalGen) (n : ProcessingNonce) : VideoScriptParams :=
  let localRand := mk n.getSeedForRand
  let cropPixels := 1 + localRand.intn 0 2
  let cropVariation := n.timestamp % 3
  let cropPixels := (cropPixels + cropVariation) % 3
  let cropPixels := if cropPixels = 0 then 1 else cropPixels
  let gamma : Rat := 998 / 1000 + localRand.float 1 * (4 / 1000)
  let gamma := gamma + (n.timestamp % 1000 : Nat) / 1000000
  let gamma := if 1002 / 1000 < gamma then 1002 / 1000 else gamma
  let boxX := n.timestamp % 2
  let boxY := (n.timestamp / 10) % 2
  { cropPixels := cropPixels, gamma := gamma, boxX := boxX, boxY := boxY, title := uidBytes n }

/-- One audio script-technique operation, as an effect on the nonce
supply and the shared global generator state: `GenerateNonce()` takes
the head of the supply, and the global state is neither read nor
written. -/
def audioScriptOp (mk : Nat → LocalGen) (supply : List ProcessingNonce) (g : Nat) :
    Option (AudioScriptParams × List ProcessingNonce × Nat) :=
  match supply with
  | [] => none
  | n :: rest => some (audioScriptParams mk n, rest, g)

/-- One image script-technique operation (see `audioScriptOp`). -/
def imageScriptOp (mk : Nat → LocalGen) (inputFormat : String)
    (supply : List ProcessingNonce) (g : Nat) :
    Option (ImageScriptParams × List ProcessingNonce × Nat) :=
  match supply with
  | [] => none
  | n :: rest => some (imageScriptParams mk inputFormat n, rest, g)

/-- One video script-technique operation (see `audioScriptOp`). -/
def videoScriptOp (mk : Nat → LocalGen) (supply : List ProcessingNonce) (g : Nat) :
    Option (VideoScriptParams × List ProcessingNonce × Nat) :=
  match supply with
  | [] => none
  | n :: rest => some (videoScriptParams mk n, rest, g)

/-! ## Process handler (handlers/process_handler.go)

`Process` is modelled as its effect on the scratch directory and the
response.  The outcome of each externally-determined stage (download,
`os.WriteFile`, the `ffmpeg` run, `Store`) is a parameter;
`os.WriteFile` is atomic here (failure creates no file).  The video
converter writes and defer-removes its temporary input file inside the
call, a net no-op on the directory, so it does not appear in the final
state.  The image converter writes its output to
`adjustOutputPath(outputPath, detectFormat(inputData))`, while the
handler verifies, stores and cleans up `outputPath` itself.
-/

/-- Go `storage.GetFileExtension(mediaType)`. -/
def getFileExtension (mediaType : String) : String :=
  if mediaType = "audio" then ".opus"
  else if mediaType = "image" then ".jpg"
  else if mediaType = "video" then ".mp4"
  else ".bin"

/-- Go `getExtensionForFormat(format)` (handlers and storage have
identical copies). -/
def getExtensionForFormat (format : String) : String :=
  let f := strToLower format
  if strStartsWith f "." then f else "." ++ f

/-- Go `filepath.Ext`: the suffix starting at the final dot of the last
path element (empty when that element has no dot). -/
def pathExt (p : String) : String :=
  let r := p.toList.reverse
  let pre := r.takeWhile (fun c => c != '.' && c != '/')
  match r.drop pre.length with
  | '.' :: _ => String.mk ('.' :: pre.reverse)
  | _ => ""

/-- Go `strings.TrimSuffix`. -/
def trimSuffix (s suf : String) : String :=
  if strEndsWith s suf then String.mk (s.toList.take (s.toList.length - suf.toList.length))
  else s

/-- Go `func (ic *ImageConverter) adjustOutputPath(path, format string)`. -/
def adjustOutputPath (path format : String) : String :=
  let ext := pathExt path
  let base := trimSuffix path ext
  if format = "png" then base ++ ".png"
  else if format = "webp" then base ++ ".webp"
  else base ++ ".jpg"

structure ProcessOutcome where
  downloadOk : Bool
  detectedFormat : String
  writeOriginalOk : Bool
  convertOk : Bool
  storeOk : Bool
  deriving DecidableEq, Repr

structure ProcessResult where
  response : Except String String
  disk : List String
  storedId : Option String
  deriving Repr

/-- Go `func (h *ProcessHandler) Process(c fiber.Ctx) error`, from a
successfully parsed request whose URL yielded `mediaType` and
`inputFormat`.  `origBase` and `outBase` are the random path stems
produced by `GenerateTempPath` / `GenerateTempPathWithFormat`,
`storeId` the id minted by `Store`. -/
def processRequest (mediaType inputFormat : String) (origBase outBase storeId : String)
    (o : ProcessOutcome) : ProcessResult :=
  if ¬ o.downloadOk then
    ⟨Except.error "Failed to download file", [], none⟩
  else
    let originalPath := origBase ++ getFileExtension mediaType ++ ".original"
    if ¬ o.writeOriginalOk then
      ⟨Except.error "Failed to save original file", [], none⟩
    else
      let disk := [originalPath]
      let outputPath := outBase ++ getExtensionForFormat inputFormat
      let convertTarget :=
        if mediaType = "image" then adjustOutputPath outputPath o.detectedFormat
        else outputPath
      if ¬ o.convertOk then
        ⟨Except.error "Processing failed", osRemove disk originalPath, none⟩
      else
        let disk := convertTarget :: disk
        if outputPath ∉ disk then
          ⟨Except.error "Output file was not created", osRemove disk originalPath, none⟩
        else if ¬ o.storeOk then
          ⟨Except.error "Failed to store processed file",
            osRemove (osRemove disk outputPath) originalPath, none⟩
        else
          ⟨Except.ok storeId, disk, some storeId⟩

/-! ## Concrete fixtures used by witnesses -/

def tfExpiredSample : TempFile :=
  { id := "a", path := "pa", originalPath := "oa", mediaType := "audio"
    createdAt := 0, expiresAt := 3, size := 1 }

def tfLiveSample : TempFile :=
  { id := "b", path := "pb", originalPath := "ob", mediaType := "video"
    createdAt := 0, expiresAt := 100, size := 1 }

def tsSample : TempStorage :=
  { files := [("a", tfExpiredSample), ("b", tfLiveSample)]
    disk := ["pa", "oa", "pb", "ob"]
    ttl := 600
    cleanupInterval := 60 }

def genSample : Nat → LocalGen := fun _ => { intn := fun _ _ => 0, float := fun _ => 0 }

def nonceSample : ProcessingNonce := { timestamp := 7, random := [1, 2], nonce := [55, 95, 48] }

def payload100 : List Nat := List.replicate 100 7

def payload150 : List Nat := List.replicate 150 7

def payload200 : List Nat := List.replicate 200 9

/-! # Theorems -/

/-! ## Helper lemmas about lookups, filters and removals -/

theorem lookupId_filter_of_keep {β : Type} (p : String × β → Bool) :
    ∀ (l : List (String × β)) (k : String) (v : β),
      lookupId k l = some v → p (k, v) = true → lookupId k (l.filter p) = some v := by
  intro l
  induction l with
  | nil => intro k v h _; simp [lookupId] at h
  | cons e t ih =>
    intro k v h hp
    by_cases hk : e.1 = k
    · have hv : e.2 = v := by
        simp only [lookupId, if_pos hk] at h
        exact Option.some.inj h
      have he : e = (k, v) := by
        cases e; simp only at hk hv; rw [hk, hv]
      subst he
      simp [List.filter, hp, lookupId]
    · simp only [lookupId, if_neg hk] at h
      cases hpe : p e with
      | true =>
        simp only [List.filter, hpe, lookupId, if_neg hk]
        exact ih k v h hp
      | false =>
        simp only [List.filter, hpe]
        exact ih k v h hp

theorem lookupId_filter_ne {β : Type} (key : String) :
    ∀ (l : List (String × β)) (k : String), k ≠ key →
      lookupId k (l.filter (fun e => e.1 != key)) = lookupId k l := by
  intro l
  induction l with
  | nil => intro k _; rfl
  | cons e t ih =>
    intro k hk
    by_cases h1 : e.1 = key
    · have hb : (e.1 != key) = false := by simp [h1]
      have hke : ¬ e.1 = k := by rw [h1]; exact fun h => hk h.symm
      simp only [List.filter, hb, lookupId, if_neg hke]
      exact ih k hk
    · have hb : (e.1 != key) = true := by simp [h1]
      simp only [List.filter, hb, lookupId]
      by_cases h2 : e.1 = k
      · simp only [if_pos h2]
      · simp only [if_neg h2]
        exact ih k hk

theorem not_mem_osRemove_self (disk : List String) (p : String) :
    p ∉ osRemove disk p := by
  intro h
  rcases List.mem_filter.mp h with ⟨-, hp⟩
  simp at hp

theorem not_mem_osRemove_of_not_mem (disk : List String) (p q : String) :
    q ∉ disk → q ∉ osRemove disk p := by
  intro h hmem
  exact h (List.mem_filter.mp hmem).1

theorem osRemove_of_not_mem (disk : List String) (p : String) :
    p ∉ disk → osRemove disk p = disk := by
  intro h
  apply List.filter_eq_self.mpr
  intro q hq
  simp only [bne_iff_ne, ne_eq, decide_eq_true_eq]
  intro hqp
  exact h (hqp ▸ hq)

theorem not_mem_cleanupRemoveFiles_of_not_mem (disk : List String) (tf : TempFile)
    (q : String) : q ∉ disk → q ∉ cleanupRemoveFiles disk tf := by
  intro h
  unfold cleanupRemoveFiles
  split
  · exact not_mem_osRemove_of_not_mem _ _ _ (not_mem_osRemove_of_not_mem _ _ _ h)
  · exact not_mem_osRemove_of_not_mem _ _ _ h

theorem not_mem_cleanupRemoveFiles_path (disk : List String) (tf : TempFile) :
    tf.path ∉ cleanupRemoveFiles disk tf := by
  unfold cleanupRemoveFiles
  split
  · exact not_mem_osRemove_of_not_mem _ _ _ (not_mem_osRemove_self _ _)
  · exact not_mem_osRemove_self _ _

theorem not_mem_cleanupRemoveFiles_orig (disk : List String) (tf : TempFile) :
    tf.originalPath ≠ "" → tf.originalPath ∉ cleanupRemoveFiles disk tf := by
  intro hne
  unfold cleanupRemoveFiles
  split
  · exact not_mem_osRemove_self _ _
  · next hc =>
    have hp : tf.originalPath = tf.path := by
      rcases Bool.and_eq_false_iff.mp (Bool.eq_false_iff.mpr hc) with h | h
      · exact absurd (by simpa using h) hne
      · simpa using h
    rw [hp]
    exact not_mem_osRemove_self _ _

theorem not_mem_foldl_cleanupRemove (l : List TempFile) :
    ∀ (disk : List String) (q : String), q ∉ disk →
      q ∉ l.foldl cleanupRemoveFiles disk := by
  induction l with
  | nil => intro disk q h; simpa using h
  | cons e t ih =>
    intro disk q h
    simp only [List.foldl_cons]
    exact ih _ _ (not_mem_cleanupRemoveFiles_of_not_mem _ _ _ h)

theorem foldl_cleanupRemove_kills :
    ∀ (l : List TempFile) (disk : List String) (q : String),
      (∃ tf ∈ l, q = tf.path ∨ (q = tf.originalPath ∧ tf.originalPath ≠ "")) →
      q ∉ l.foldl cleanupRemoveFiles disk := by
  intro l
  induction l with
  | nil => intro disk q h; rcases h with ⟨tf, htf, -⟩; simp at htf
  | cons e t ih =>
    intro disk q h
    rcases h with ⟨tf, htf, hq⟩
    rcases List.mem_cons.mp htf with heq | hmem
    · subst heq
      simp only [List.foldl_cons]
      have hkilled : q ∉ cleanupRemoveFiles disk tf := by
        rcases hq with hpath | ⟨horig, hne⟩
        · subst hpath; exact not_mem_cleanupRemoveFiles_path _ _
        · subst horig; exact not_mem_cleanupRemoveFiles_orig _ _ hne
      exact not_mem_foldl_cleanupRemove t _ _ hkilled
    · simp only [List.foldl_cons]
      exact ih _ q ⟨tf, hmem, hq⟩

theorem osRemove_idem (d : List String) (p : String) :
    osRemove (osRemove d p) p = osRemove d p := by
  simp [osRemove, List.filter_filter]

theorem osRemove_comm (d : List String) (p q : String) :
    osRemove (osRemove d p) q = osRemove (osRemove d q) p := by
  induction d with
  | nil => rfl
  | cons a t ih =>
    simp only [osRemove, List.filter] at ih ⊢
    by_cases hp : (a != p) = true <;> by_cases hq : (a != q) = true <;>
      simp [hp, hq, List.filter] <;> simpa [osRemove] using ih

theorem scheduleDeletion_files (ts : TempStorage) (id fp op : String) :
    (ts.scheduleDeletion id fp op).files = ts.files.filter (fun e => e.1 != id) := by
  unfold TempStorage.scheduleDeletion
  by_cases hc : (op != "" && op != fp) = true <;> simp [hc]

theorem scheduleDeletion_idem (ts : TempStorage) (id fp op : String) :
    (ts.scheduleDeletion id fp op).scheduleDeletion id fp op
      = ts.scheduleDeletion id fp op := by
  unfold TempStorage.scheduleDeletion
  by_cases hc : (op != "" && op != fp) = true
  · simp only [hc, if_true]
    refine congrArg₂ (fun f d => { ts with files := f, disk := d }) ?_ ?_
    · simp [List.filter_filter]
    · have h1 : osRemove (osRemove (osRemove ts.disk fp) op) fp
          = osRemove (osRemove ts.disk fp) op := by
        rw [osRemove_comm _ op fp, osRemove_idem]
      rw [h1, osRemove_idem]
  · simp only [hc, if_false, Bool.false_eq_true]
    refine congrArg₂ (fun f d => { ts with files := f, disk := d }) ?_ ?_
    · simp [List.filter_filter]
    · rw [osRemove_idem]

theorem cleanup_idem (ts : TempStorage) (now : Int) :
    (ts.cleanup now).cleanup now = ts.cleanup now := by
  unfold TempStorage.cleanup
  simp [List.filter_filter]

theorem scheduleDeletion_noop (ts : TempStorage) (id fp op : String)
    (hid : ∀ e ∈ ts.files, e.1 ≠ id) (hfp : fp ∉ ts.disk) (hop : op ∉ ts.disk) :
    ts.scheduleDeletion id fp op = ts := by
  unfold TempStorage.scheduleDeletion
  have hf : ts.files.filter (fun e => e.1 != id) = ts.files :=
    List.filter_eq_self.mpr (fun e he => by simpa using hid e he)
  have hd1 : osRemove ts.disk fp = ts.disk := osRemove_of_not_mem _ _ hfp
  have hd2 : osRemove ts.disk op = ts.disk := osRemove_of_not_mem _ _ hop
  by_cases hc : (op != "" && op != fp) = true <;> simp [hc, hf, hd1, hd2]

theorem TempStorage.get_lookup_some (ts : TempStorage) (id : String) (now : Int)
    (tf : TempFile) (h : lookupId id ts.files = some tf) :
    ts.get id now =
      if tf.expiresAt < now then (GetResult.expired, ts) else (GetResult.found tf, ts) := by
  unfold TempStorage.get
  rw [h]

theorem TempStorage.get_lookup_none (ts : TempStorage) (id : String) (now : Int)
    (h : lookupId id ts.files = none) :
    ts.get id now = (GetResult.notFound, ts) := by
  unfold TempStorage.get
  rw [h]

/-! ## Nonce hash lemmas -/

theorem nonceHash_fold (bytes : List Nat) :
    ∀ a : Nat, bytes.foldl (fun h b => (h * 31 + b) % i64Mod) (a % i64Mod) =
      (a * 31 ^ bytes.length + polyVal31 bytes) % i64Mod := by
  induction bytes with
  | nil => intro a; simp [polyVal31]
  | cons b t ih =>
    intro a
    have hstep : ((a % i64Mod) * 31 + b) % i64Mod = (a * 31 + b) % i64Mod := by
      simp only [i64Mod]
      omega
    have ihb := ih (a * 31 + b)
    calc (b :: t).foldl (fun h x => (h * 31 + x) % i64Mod) (a % i64Mod)
        = t.foldl (fun h x => (h * 31 + x) % i64Mod) (((a % i64Mod) * 31 + b) % i64Mod) := rfl
      _ = t.foldl (fun h x => (h * 31 + x) % i64Mod) ((a * 31 + b) % i64Mod) := by rw [hstep]
      _ = ((a * 31 + b) * 31 ^ t.length + polyVal31 t) % i64Mod := ihb
      _ = (a * 31 ^ (b :: t).length + polyVal31 (b :: t)) % i64Mod := by
          simp only [List.length_cons, polyVal31]
          ring_nf

theorem nonceHash_eq_polyVal31 (bytes : List Nat) :
    nonceHash bytes = polyVal31 bytes % i64Mod := by
  have h := nonceHash_fold bytes 0
  simpa [nonceHash] using h

theorem getSeedForRand_lt (n : ProcessingNonce) :
    n.getSeedForRand < i64Mod := by
  have h1 : n.timestamp % i64Mod < 2 ^ 64 :=
    Nat.mod_lt _ (by norm_num [i64Mod])
  have h2 : nonceHash n.nonce < 2 ^ 64 := by
    rw [nonceHash_eq_polyVal31]
    exact Nat.mod_lt _ (by norm_num [i64Mod])
  simpa [ProcessingNonce.getSeedForRand, i64Mod] using Nat.xor_lt_two_pow h1 h2

/-! ## Claim theorems -/

/-- C7: the seed derivation from a nonce is a pure, deterministic
function of the nonce: for every `ProcessingNonce` it equals the
nonce's timestamp XOR-folded with the base-31 polynomial hash of the
nonce string (both reduced to 64-bit patterns), it fits in 64 bits, and
two calls on equal nonces return the same seed. -/
theorem getSeedForRand_spec :
    (∀ n : ProcessingNonce,
      n.getSeedForRand = Nat.xor (n.timestamp % i64Mod) (polyVal31 n.nonce % i64Mod) ∧
      n.getSeedForRand < i64Mod) ∧
    (∀ n m : ProcessingNonce, n = m → n.getSeedForRand = m.getSeedForRand) := by
  constructor
  · intro n
    refine ⟨?_, getSeedForRand_lt n⟩
    rw [ProcessingNonce.getSeedForRand, nonceHash_eq_polyVal31]
  · intro n m h
    rw [h]

/-- Witness for C7 at a concrete nonce. -/
theorem getSeedForRand_spec_witness :
    nonceSample.getSeedForRand
        = Nat.xor (nonceSample.timestamp % i64Mod) (polyVal31 nonceSample.nonce % i64Mod) ∧
    nonceSample.getSeedForRand < i64Mod ∧
    nonceSample.getSeedForRand = nonceSample.getSeedForRand :=
  ⟨(getSeedForRand_spec.1 nonceSample).1, (getSeedForRand_spec.1 nonceSample).2,
    getSeedForRand_spec.2 nonceSample nonceSample rfl⟩

/-- C1: after `Store` records an object at time `now` (with
`expiresAt = createdAt + TTL`), `Get` returns exactly the stored object
at any query time before `expiresAt` (in particular immediately), and
after expiry it reports the expired error — never the object — even
though the entry is still physically present in the map. -/
theorem store_then_get_window
    (ts : TempStorage) (fp op mt id : String) (now size : Int)
    (hdisk : fp ∈ ts.disk) (httl : 0 ≤ ts.ttl) :
    ∃ ts2 tf,
      ts.store fp op mt id now size = Except.ok (id, ts2) ∧
      tf.path = fp ∧ tf.originalPath = op ∧ tf.mediaType = mt ∧
      tf.createdAt = now ∧ tf.expiresAt = now + ts.ttl ∧ tf.size = size ∧
      (ts2.get id now).1 = GetResult.found tf ∧
      (∀ q : Int, q < now + ts.ttl → (ts2.get id q).1 = GetResult.found tf) ∧
      (∀ q : Int, now + ts.ttl < q →
        lookupId id ts2.files = some tf ∧
        (ts2.get id q).1 = GetResult.expired ∧
        ∀ tf2, (ts2.get id q).1 ≠ GetResult.found tf2) := by
  set tf : TempFile := ⟨id, fp, op, mt, now, now + ts.ttl, size⟩ with htf
  set ts2 : TempStorage :=
    { ts with files := (id, tf) :: ts.files.filter (fun e => e.1 != id) } with hts2
  have hlook : lookupId id ts2.files = some tf := by
    simp [hts2, lookupId]
  have hget : ∀ q : Int, ts2.get id q =
      if tf.expiresAt < q then (GetResult.expired, ts2) else (GetResult.found tf, ts2) :=
    fun q => TempStorage.get_lookup_some ts2 id q tf hlook
  refine ⟨ts2, tf, ?_, rfl, rfl, rfl, rfl, rfl, rfl, ?_, ?_, ?_⟩
  · unfold TempStorage.store
    rw [if_pos hdisk]
  · rw [hget now, if_neg (by simp only [htf]; omega)]
  · intro q hq
    rw [hget q, if_neg (by simp only [htf]; omega)]
  · intro q hq
    refine ⟨hlook, ?_, ?_⟩
    · rw [hget q, if_pos (by simp only [htf]; omega)]
    · intro tf2
      rw [hget q, if_pos (by simp only [htf]; omega)]
      simp

/-- Witness for C1 at a concrete store, artifact and times. -/
theorem store_then_get_window_witness :
    "pa" ∈ tsSample.disk ∧ (0 : Int) ≤ tsSample.ttl ∧
    (∃ ts2 tf,
      tsSample.store "pa" "oa" "audio" "x" 0 7 = Except.ok ("x", ts2) ∧
      tf.path = "pa" ∧ tf.originalPath = "oa" ∧ tf.mediaType = "audio" ∧
      tf.createdAt = 0 ∧ tf.expiresAt = 0 + tsSample.ttl ∧ tf.size = 7 ∧
      (ts2.get "x" 0).1 = GetResult.found tf ∧
      (∀ q : Int, q < 0 + tsSample.ttl → (ts2.get "x" q).1 = GetResult.found tf) ∧
      (∀ q : Int, 0 + tsSample.ttl < q →
        lookupId "x" ts2.files = some tf ∧
        (ts2.get "x" q).1 = GetResult.expired ∧
        ∀ tf2, (ts2.get "x" q).1 ≠ GetResult.found tf2)) :=
  ⟨by decide, by decide,
    store_then_get_window tsSample "pa" "oa" "audio" "x" 0 7 (by decide) (by decide)⟩

/-- C10: `Get` is read-only: it returns the store unchanged for every
id and query time, so no lookup alters any entry or its expiry; in
particular an expired entry is reported expired but remains in the map
with its original expiry after the lookup. -/
theorem get_is_readonly (ts : TempStorage) (id : String) (now : Int) :
    (ts.get id now).2 = ts ∧
    (∀ k, lookupId k ((ts.get id now).2).files = lookupId k ts.files) ∧
    (∀ tf, lookupId id ts.files = some tf →
      lookupId id ((ts.get id now).2).files = some tf ∧
      (tf.expiresAt < now → (ts.get id now).1 = GetResult.expired)) := by
  have h2 : (ts.get id now).2 = ts := by
    unfold TempStorage.get
    cases h : lookupId id ts.files with
    | none => rfl
    | some tf => by_cases hq : tf.expiresAt < now <;> simp [hq]
  refine ⟨h2, fun k => by rw [h2], fun tf h => ⟨by rw [h2]; exact h, fun hexp => ?_⟩⟩
  rw [TempStorage.get_lookup_some ts id now tf h, if_pos hexp]

/-- Witness for C10 at a concrete store holding an expired entry. -/
theorem get_is_readonly_witness :
    (tsSample.get "a" 20).2 = tsSample ∧
    lookupId "a" ((tsSample.get "a" 20).2).files = some tfExpiredSample ∧
    (tsSample.get "a" 20).1 = GetResult.expired :=
  ⟨(get_is_readonly tsSample "a" 20).1,
    ((get_is_readonly tsSample "a" 20).2.2 tfExpiredSample (by decide)).1,
    ((get_is_readonly tsSample "a" 20).2.2 tfExpiredSample (by decide)).2 (by decide)⟩

/-- C4: both eviction paths are idempotent and framed: re-running the
scheduled deletion for an id (whose files are then already gone) leaves
the state unchanged; the scheduled deletion never touches any other
entry; re-running the sweep is a no-op; the sweep never removes a live
entry; and running the scheduled deletion when the entry and both
backing files are already gone is the identity — deletion of missing
files is total (no error result), as the Go code tolerates
`os.IsNotExist`. -/
theorem eviction_idempotent_and_framed :
    (∀ (ts : TempStorage) (id fp op : String),
      (ts.scheduleDeletion id fp op).scheduleDeletion id fp op
        = ts.scheduleDeletion id fp op) ∧
    (∀ (ts : TempStorage) (id fp op k : String), k ≠ id →
      lookupId k (ts.scheduleDeletion id fp op).files = lookupId k ts.files) ∧
    (∀ (ts : TempStorage) (now : Int), (ts.cleanup now).cleanup now = ts.cleanup now) ∧
    (∀ (ts : TempStorage) (now : Int) (k : String) (tf : TempFile),
      lookupId k ts.files = some tf → ¬ tf.expiresAt < now →
      lookupId k (ts.cleanup now).files = some tf) ∧
    (∀ (ts : TempStorage) (id fp op : String),
      (∀ e ∈ ts.files, e.1 ≠ id) → fp ∉ ts.disk → op ∉ ts.disk →
      ts.scheduleDeletion id fp op = ts) := by
  refine ⟨scheduleDeletion_idem, ?_, cleanup_idem, ?_, scheduleDeletion_noop⟩
  · intro ts id fp op k hk
    rw [scheduleDeletion_files]
    exact lookupId_filter_ne id ts.files k hk
  · intro ts now k tf h hlive
    unfold TempStorage.cleanup
    exact lookupId_filter_of_keep _ ts.files k tf h (by simp [hlive])

/-- Witness for C4 at a concrete store with one expired and one live
entry. -/
theorem eviction_idempotent_and_framed_witness :
    ((tsSample.scheduleDeletion "a" "pa" "oa").scheduleDeletion "a" "pa" "oa"
        = tsSample.scheduleDeletion "a" "pa" "oa") ∧
    lookupId "b" (tsSample.scheduleDeletion "a" "pa" "oa").files
        = lookupId "b" tsSample.files ∧
    (tsSample.cleanup 20).cleanup 20 = tsSample.cleanup 20 ∧
    lookupId "b" (tsSample.cleanup 20).files = some tfLiveSample ∧
    tsSample.scheduleDeletion "zz" "nope1" "nope2" = tsSample :=
  ⟨eviction_idempotent_and_framed.1 tsSample "a" "pa" "oa",
    eviction_idempotent_and_framed.2.1 tsSample "a" "pa" "oa" "b" (by decide),
    eviction_idempotent_and_framed.2.2.1 tsSample 20,
    eviction_idempotent_and_framed.2.2.2.1 tsSample 20 "b" tfLiveSample
      (by decide) (by decide),
    eviction_idempotent_and_framed.2.2.2.2 tsSample "zz" "nope1" "nope2"
      (by decide) (by decide) (by decide)⟩

/-- C9 counterexample: for a store constructed with a 30-second TTL,
the sweep ticker period is one minute, which is not shorter than the
TTL — the period is fixed and not derived as one tenth of the TTL. -/
theorem cleanup_interval_not_lt_ttl_cex :
    (newTempStorage (30 * 1000000000)).ttl = 30 * 1000000000 ∧
    (newTempStorage (30 * 1000000000)).cleanupInterval = 60 * 1000000000 ∧
    ¬ (newTempStorage (30 * 1000000000)).cleanupInterval
        < (newTempStorage (30 * 1000000000)).ttl := by
  refine ⟨?_, ?_, ?_⟩ <;> norm_num [newTempStorage, minuteNs]

/-- C9 (amended): the periodic sweep runs on a ticker whose period is
fixed at one minute for every configured TTL — one tenth of the default
10-minute TTL, and shorter than the TTL exactly when the TTL exceeds
one minute — and each sweep removes every map entry whose `expiresAt`
has passed and deletes that entry's backing files. -/
theorem cleanup_interval_and_sweep :
    (∀ ttl : Int, (newTempStorage ttl).cleanupInterval = minuteNs) ∧
    (∀ ttl : Int, ttl ≤ 0 → (newTempStorage ttl).ttl = 10 * minuteNs) ∧
    (∀ ttl : Int, minuteNs < ttl →
      (newTempStorage ttl).cleanupInterval < (newTempStorage ttl).ttl) ∧
    (∀ (ts : TempStorage) (now : Int) (k : String) (tf : TempFile),
      (k, tf) ∈ ts.files → tf.expiresAt < now →
      (k, tf) ∉ (ts.cleanup now).files ∧
      tf.path ∉ (ts.cleanup now).disk ∧
      (tf.originalPath ≠ "" → tf.originalPath ∉ (ts.cleanup now).disk)) := by
  refine ⟨fun _ => rfl, ?_, ?_, ?_⟩
  · intro ttl h
    simp [newTempStorage, h]
  · intro ttl h
    have h0 : ¬ ttl ≤ 0 := by
      simp only [minuteNs] at h
      omega
    simpa [newTempStorage, h0] using h
  · intro ts now k tf hmem hexp
    have hexpmem : tf ∈ (ts.files.filter (fun e => decide (e.2.expiresAt < now))).map (·.2) :=
      List.mem_map.mpr ⟨(k, tf), List.mem_filter.mpr ⟨hmem, by simpa using hexp⟩, rfl⟩
    refine ⟨?_, ?_, ?_⟩
    · intro hmem2
      unfold TempStorage.cleanup at hmem2
      have h2 := (List.mem_filter.mp hmem2).2
      simp at h2
      omega
    · exact foldl_cleanupRemove_kills _ _ _ ⟨tf, hexpmem, Or.inl rfl⟩
    · intro hne
      exact foldl_cleanupRemove_kills _ _ _ ⟨tf, hexpmem, Or.inr ⟨rfl, hne⟩⟩

/-- Witness for the amended C9 at a concrete TTL and store. -/
theorem cleanup_interval_and_sweep_witness :
    (newTempStorage 0).cleanupInterval = minuteNs ∧
    (newTempStorage 0).ttl = 10 * minuteNs ∧
    (newTempStorage (120 * 1000000000)).cleanupInterval
        < (newTempStorage (120 * 1000000000)).ttl ∧
    ("a", tfExpiredSample) ∉ (tsSample.cleanup 20).files ∧
    tfExpiredSample.path ∉ (tsSample.cleanup 20).disk ∧
    (tfExpiredSample.originalPath ≠ "" →
      tfExpiredSample.originalPath ∉ (tsSample.cleanup 20).disk) :=
  ⟨cleanup_interval_and_sweep.1 0,
    cleanup_interval_and_sweep.2.1 0 (by decide),
    cleanup_interval_and_sweep.2.2.1 (120 * 1000000000) (by decide),
    (cleanup_interval_and_sweep.2.2.2 tsSample 20 "a" tfExpiredSample
      (by decide) (by decide)).1,
    (cleanup_interval_and_sweep.2.2.2 tsSample 20 "a" tfExpiredSample
      (by decide) (by decide)).2.1,
    (cleanup_interval_and_sweep.2.2.2 tsSample 20 "a" tfExpiredSample
      (by decide) (by decide)).2.2⟩

/-- C8: every script-technique transformation takes exactly one nonce
from the nonce supply (one `GenerateNonce()` call per operation) and
returns parameters that are a pure function of that nonce alone,
through the local generator seeded with `GetSeedForRand`: the shared
global generator state `g` is returned untouched, and the computed
parameters coincide for any two global states, so two operations'
parameter sequences depend only on their own nonces. -/
theorem scriptOps_single_nonce_local_rand :
    (∀ (mk : Nat → LocalGen) (n : ProcessingNonce) (rest : List ProcessingNonce) (g : Nat),
      audioScriptOp mk (n :: rest) g = some (audioScriptParams mk n, rest, g) ∧
      videoScriptOp mk (n :: rest) g = some (videoScriptParams mk n, rest, g) ∧
      (∀ fmt : String,
        imageScriptOp mk fmt (n :: rest) g = some (imageScriptParams mk fmt n, rest, g))) ∧
    (∀ (mk : Nat → LocalGen) (supply : List ProcessingNonce) (g g2 : Nat),
      (audioScriptOp mk supply g).map (fun r => r.1)
          = (audioScriptOp mk supply g2).map (fun r => r.1) ∧
      (videoScriptOp mk supply g).map (fun r => r.1)
          = (videoScriptOp mk supply g2).map (fun r => r.1) ∧
      (∀ fmt : String,
        (imageScriptOp mk fmt supply g).map (fun r => r.1)
          = (imageScriptOp mk fmt supply g2).map (fun r => r.1))) := by
  constructor
  · intro mk n rest g
    exact ⟨rfl, rfl, fun _ => rfl⟩
  · intro mk supply g g2
    cases supply with
    | nil => exact ⟨rfl, rfl, fun _ => rfl⟩
    | cons n rest => exact ⟨rfl, rfl, fun _ => rfl⟩

/-- C2: the retry loop of `Download` performs at most 3 attempts with
backoff sleeps of 1x and 2x the 1-second base delay, fails immediately
and without retry on structural errors (bad scheme before any attempt,
HTTP error status, oversize), wraps the last transient error after
exhausting the 3 attempts, and retries transient errors such as a
connection reset — but an `unexpected EOF` error is NOT retried,
although the code's own `retryableErrors` table lists `"EOF"`: that
pattern is matched against the lower-cased message, so it can never
match, and `Download` gives up after the first attempt. -/
theorem download_retry_and_eof_divergence :
    download "ftp://x" (fun _ => Except.error "unused")
      = ⟨Except.error "invalid URL scheme: must be http:// or https://", 0, []⟩ ∧
    download "http://h/f.bin" (fun _ => Except.error (dlErrorMessage (DlError.httpStatus 404)))
      = ⟨Except.error "download failed: HTTP 404", 1, []⟩ ∧
    download "http://h/f.bin"
        (fun _ => Except.error (dlErrorMessage (DlError.tooLargeDeclared 600 500)))
      = ⟨Except.error "file too large: 600 bytes (max: 500)", 1, []⟩ ∧
    download "http://h/f.bin"
        (fun _ => Except.error (dlErrorMessage (DlError.incompleteRead 10 4)))
      = ⟨Except.error ("download failed after 3 attempts: "
          ++ "incomplete download: expected 10 bytes, got 4 bytes (connection interrupted)"),
        3, [1, 2]⟩ ∧
    download "http://h/f.bin"
        (fun k => if k = 1 then Except.error "read tcp: connection reset by peer"
          else Except.ok payload100)
      = ⟨Except.ok payload100, 2, [1]⟩ ∧
    isRetryableError "unexpected EOF" = false ∧
    isRetryableError (dlErrorMessage (DlError.requestFailed "unexpected EOF")) = false ∧
    download "http://h/f.bin"
        (fun _ => Except.error (dlErrorMessage (DlError.requestFailed "unexpected EOF")))
      = ⟨Except.error "download failed: unexpected EOF", 1, []⟩ :=
  ⟨rfl, rfl, rfl, rfl, rfl, rfl, rfl, rfl⟩

theorem postReadChecks_snd (url : String) (cl : Int)
    (p : Except DlError (List Nat) × Nat) : (postReadChecks url cl p).2 = p.2 := by
  rcases p with ⟨res, n⟩
  cases res with
  | error e => rfl
  | ok data =>
    simp only [postReadChecks]
    split_ifs <;> first | rfl | (split <;> rfl)

theorem postReadChecks_ok (url : String) (cl : Int)
    (p : Except DlError (List Nat) × Nat) (data : List Nat) :
    (postReadChecks url cl p).1 = Except.ok data → p.1 = Except.ok data := by
  rcases p with ⟨res, n⟩
  cases res with
  | error e => intro h; simp [postReadChecks] at h
  | ok d =>
    simp only [postReadChecks]
    split_ifs <;> intro h
    · simp at h
    · simp at h
    · revert h
      split
      · intro h; simp at h
      · intro h; exact h
    · exact h

theorem postReadChecks_error (url : String) (cl : Int)
    (e : DlError) (n : Nat) :
    postReadChecks url cl (Except.error e, n) = (Except.error e, n) := rfl

/-- C5: with a declared content length (and a body that, as `net/http`
guarantees, never delivers more than the declared length), the length
is checked against the ceiling before any body byte is consumed; the
read never consumes more than the declared length; a short read (fewer
bytes delivered than declared) is a hard incomplete-transfer error
rather than a silently returned truncation; and a successful result has
exactly the declared length. -/
theorem downloadWithValidation_declared_length
    (maxSize poolAllocated : Int) (url : String) (r : HttpResponse)
    (hstatus : r.statusCode = 200) (hL : 0 < r.contentLength)
    (hbody : (r.body.length : Int) ≤ r.contentLength) :
    (maxSize < r.contentLength →
      downloadWithValidation maxSize poolAllocated url (Except.ok r)
        = (Except.error (DlError.tooLargeDeclared r.contentLength maxSize), 0)) ∧
    ((downloadWithValidation maxSize poolAllocated url (Except.ok r)).2 : Int)
        ≤ r.contentLength ∧
    (r.contentLength ≤ maxSize → (r.body.length : Int) < r.contentLength →
      (downloadWithValidation maxSize poolAllocated url (Except.ok r)).1
          = Except.error (DlError.incompleteRead r.contentLength r.body.length) ∨
      (downloadWithValidation maxSize poolAllocated url (Except.ok r)).1
          = Except.error (DlError.incompletePartial r.contentLength r.body.length)) ∧
    (∀ data : List Nat,
      (downloadWithValidation maxSize poolAllocated url (Except.ok r)).1 = Except.ok data →
      (data.length : Int) = r.contentLength) := by
  have h200 : ¬ r.statusCode ≠ 200 := by simp [hstatus]
  by_cases hmax : maxSize < r.contentLength
  · have heval : downloadWithValidation maxSize poolAllocated url (Except.ok r)
        = (Except.error (DlError.tooLargeDeclared r.contentLength maxSize), 0) := by
      simp only [downloadWithValidation]
      rw [if_neg h200, if_pos hmax]
    refine ⟨fun _ => heval, ?_, fun hle _ => absurd hle (by omega), fun data hdata => ?_⟩
    · rw [heval]
      simpa using le_of_lt hL
    · rw [heval] at hdata
      simp at hdata
  · have hdlv : downloadWithValidation maxSize poolAllocated url (Except.ok r)
        = postReadChecks url r.contentLength (readPhase maxSize poolAllocated r) := by
      simp only [downloadWithValidation]
      rw [if_neg h200, if_neg hmax]
    have hlenN : r.body.length ≤ r.contentLength.toNat := by omega
    refine ⟨fun h => absurd h hmax, ?_, ?_, ?_⟩
    · -- the read is bounded by the declared length
      rw [hdlv, postReadChecks_snd]
      by_cases hpool : r.contentLength ≤ poolAllocated
      · simp only [readPhase]
        rw [if_pos hL, if_pos hpool, min_eq_left hlenN]
        split_ifs <;> exact hbody
      · simp only [readPhase]
        rw [if_pos hL, if_neg hpool]
        have htk : (r.body.take (maxSize.toNat + 1)).length ≤ r.body.length := by
          rw [List.length_take]
          exact min_le_right _ _
        split_ifs <;> · push_cast; omega
    · -- short read: incomplete-transfer error
      intro hle hlt
      rw [hdlv]
      by_cases hpool : r.contentLength ≤ poolAllocated
      · left
        have hshortN : r.body.length < r.contentLength.toNat := by omega
        have hrp : readPhase maxSize poolAllocated r
            = (Except.error (DlError.incompleteRead r.contentLength r.body.length),
               r.body.length) := by
          simp only [readPhase]
          rw [if_pos hL, if_pos hpool, min_eq_left hlenN, if_pos hshortN]
        rw [hrp, postReadChecks_error]
      · right
        have htake : r.body.take (maxSize.toNat + 1) = r.body :=
          List.take_of_length_le (by omega)
        have hrp : readPhase maxSize poolAllocated r
            = (Except.error (DlError.incompletePartial r.contentLength r.body.length),
               r.body.length) := by
          simp only [readPhase]
          rw [if_pos hL, if_neg hpool, htake, if_pos (by omega : (r.body.length : Int) ≠ r.contentLength)]
        rw [hrp, postReadChecks_error]
    · -- success carries exactly the declared number of bytes
      intro data hdata
      rw [hdlv] at hdata
      have hok := postReadChecks_ok _ _ _ _ hdata
      by_cases hpool : r.contentLength ≤ poolAllocated
      · by_cases hshortN : r.body.length < r.contentLength.toNat
        · have hrp : readPhase maxSize poolAllocated r
              = (Except.error (DlError.incompleteRead r.contentLength r.body.length),
                 r.body.length) := by
            simp only [readPhase]
            rw [if_pos hL, if_pos hpool, min_eq_left hlenN, if_pos hshortN]
          rw [hrp] at hok
          simp at hok
        · have hrp : readPhase maxSize poolAllocated r
              = (Except.ok (r.body.take r.contentLength.toNat), r.body.length) := by
            simp only [readPhase]
            rw [if_pos hL, if_pos hpool, min_eq_left hlenN, if_neg hshortN]
          rw [hrp] at hok
          have hdataEq : data = r.body.take r.contentLength.toNat := by
            simpa using hok.symm
          subst hdataEq
          rw [List.length_take, min_eq_left (by omega : r.contentLength.toNat ≤ r.body.length)]
          omega
      · have htake : r.body.take (maxSize.toNat + 1) = r.body :=
          List.take_of_length_le (by omega)
        by_cases hne : (r.body.length : Int) ≠ r.contentLength
        · have hrp : readPhase maxSize poolAllocated r
              = (Except.error (DlError.incompletePartial r.contentLength r.body.length),
                 r.body.length) := by
            simp only [readPhase]
            rw [if_pos hL, if_neg hpool, htake, if_pos hne]
          rw [hrp] at hok
          simp at hok
        · have hrp : readPhase maxSize poolAllocated r
              = (Except.ok r.body, r.body.length) := by
            simp only [readPhase]
            rw [if_pos hL, if_neg hpool, htake, if_neg hne,
              if_neg (by omega : ¬ maxSize < (r.body.length : Int))]
          rw [hrp] at hok
          have hdataEq : data = r.body := by simpa using hok.symm
          subst hdataEq
          omega

/-- Witness for C5: a server that declares 200 bytes but delivers only
100 produces the incomplete-transfer error, having consumed no more
than the declared length, and never a successful truncated payload. -/
theorem downloadWithValidation_declared_length_witness :
    ((500 : Int) < 200 →
      downloadWithValidation 500 0 "http://h/f.bin" (Except.ok ⟨200, 200, payload100⟩)
        = (Except.error (DlError.tooLargeDeclared 200 500), 0)) ∧
    ((downloadWithValidation 500 0 "http://h/f.bin" (Except.ok ⟨200, 200, payload100⟩)).2 : Int)
        ≤ 200 ∧
    ((200 : Int) ≤ 500 → ((payload100.length : Int) < 200) →
      (downloadWithValidation 500 0 "http://h/f.bin" (Except.ok ⟨200, 200, payload100⟩)).1
          = Except.error (DlError.incompleteRead 200 payload100.length) ∨
      (downloadWithValidation 500 0 "http://h/f.bin" (Except.ok ⟨200, 200, payload100⟩)).1
          = Except.error (DlError.incompletePartial 200 payload100.length)) ∧
    (∀ data : List Nat,
      (downloadWithValidation 500 0 "http://h/f.bin" (Except.ok ⟨200, 200, payload100⟩)).1
          = Except.ok data →
      (data.length : Int) = 200) :=
  downloadWithValidation_declared_length 500 0 "http://h/f.bin" ⟨200, 200, payload100⟩
    rfl (by decide) (by decide)

/-- C6: a payload of exactly the maximum allowed size succeeds; a
declared length one byte over the maximum fails with the oversize error
before any body byte is read; and with no declared length, a body that
hits the ceiling produces the too-large error with exactly
`maxSize + 1` bytes consumed — reading stops there. -/
theorem downloadWithValidation_boundary
    (maxSize poolAllocated : Int) (url : String) :
    (∀ r : HttpResponse, r.statusCode = 200 → r.contentLength = maxSize →
      (r.body.length : Int) = maxSize → 100 ≤ r.body.length → isVideoURL url = false →
      downloadWithValidation maxSize poolAllocated url (Except.ok r)
        = (Except.ok r.body, r.body.length)) ∧
    (∀ r : HttpResponse, r.statusCode = 200 → r.contentLength = maxSize + 1 →
      downloadWithValidation maxSize poolAllocated url (Except.ok r)
        = (Except.error (DlError.tooLargeDeclared (maxSize + 1) maxSize), 0)) ∧
    (∀ r : HttpResponse, r.statusCode = 200 → r.contentLength = -1 → 0 ≤ maxSize →
      maxSize < (r.body.length : Int) →
      downloadWithValidation maxSize poolAllocated url (Except.ok r)
        = (Except.error
            (DlError.tooLargeRead ((maxSize.toNat + 1 : Nat) : Int) maxSize),
           maxSize.toNat + 1)) := by
  refine ⟨?_, ?_, ?_⟩
  · intro r h200s hcl hblen h100 hvid
    have h200 : ¬ r.statusCode ≠ 200 := by simp [h200s]
    have hL : 0 < r.contentLength := by omega
    have hmax : ¬ maxSize < r.contentLength := by omega
    have hrp : readPhase maxSize poolAllocated r = (Except.ok r.body, r.body.length) := by
      simp only [readPhase]
      rw [if_pos hL]
      by_cases hpool : r.contentLength ≤ poolAllocated
      · have hlenN : r.body.length ≤ r.contentLength.toNat := by omega
        have heq : r.contentLength.toNat = r.body.length := by omega
        rw [if_pos hpool, min_eq_left hlenN,
          if_neg (by omega : ¬ r.body.length < r.contentLength.toNat), heq, List.take_length]
      · have htake : r.body.take (maxSize.toNat + 1) = r.body :=
          List.take_of_length_le (by omega)
        rw [if_neg hpool, htake,
          if_neg (by omega : ¬ (r.body.length : Int) ≠ r.contentLength),
          if_neg (by omega : ¬ maxSize < (r.body.length : Int))]
    simp only [downloadWithValidation]
    rw [if_neg h200, if_neg hmax, hrp]
    simp only [postReadChecks]
    rw [if_neg (by omega : ¬ r.body.length = 0),
      if_neg (by omega : ¬ r.body.length < 100), if_neg (by simp [hvid])]
  · intro r h200s hcl
    have h200 : ¬ r.statusCode ≠ 200 := by simp [h200s]
    have hmax : maxSize < r.contentLength := by omega
    simp only [downloadWithValidation]
    rw [if_neg h200, if_pos hmax, hcl]
  · intro r h200s hcl hms hover
    have h200 : ¬ r.statusCode ≠ 200 := by simp [h200s]
    have hmax : ¬ maxSize < r.contentLength := by omega
    have hL : ¬ 0 < r.contentLength := by omega
    have hdl : (r.body.take (maxSize.toNat + 1)).length = maxSize.toNat + 1 := by
      rw [List.length_take]
      omega
    have hrp : readPhase maxSize poolAllocated r
        = (Except.error
            (DlError.tooLargeRead ((maxSize.toNat + 1 : Nat) : Int) maxSize),
           maxSize.toNat + 1) := by
      simp only [readPhase]
      rw [if_neg hL, hdl, if_pos (by omega : maxSize < ((maxSize.toNat + 1 : Nat) : Int))]
    simp only [downloadWithValidation]
    rw [if_neg h200, if_neg hmax, hrp, postReadChecks_error]

set_option maxRecDepth 4000 in
/-- Witness for C6 at `maxSize = 150`: an exactly-150-byte payload
succeeds, a declared 151 bytes is rejected unread, and an undeclared
body hitting the ceiling is rejected as too large after 151 bytes. -/
theorem downloadWithValidation_boundary_witness :
    downloadWithValidation 150 0 "http://h/x.bin" (Except.ok ⟨200, 150, payload150⟩)
      = (Except.ok payload150, payload150.length) ∧
    downloadWithValidation 150 0 "http://h/x.bin" (Except.ok ⟨200, 151, payload150⟩)
      = (Except.error (DlError.tooLargeDeclared (150 + 1) 150), 0) ∧
    downloadWithValidation 150 0 "http://h/x.bin" (Except.ok ⟨200, -1, payload200⟩)
      = (Except.error
          (DlError.tooLargeRead (((150 : Int).toNat + 1 : Nat) : Int) 150),
         (150 : Int).toNat + 1) :=
  ⟨(downloadWithValidation_boundary 150 0 "http://h/x.bin").1 ⟨200, 150, payload150⟩
      rfl rfl (by decide) (by decide) (by decide),
    (downloadWithValidation_boundary 150 0 "http://h/x.bin").2.1 ⟨200, 151, payload150⟩
      rfl (by decide),
    (downloadWithValidation_boundary 150 0 "http://h/x.bin").2.2 ⟨200, -1, payload200⟩
      rfl rfl (by decide) (by decide)⟩

/-- C3 failing input: a request whose URL ends in `.jpg` but whose
downloaded bytes are detected as PNG.  Every stage up to and including
the `ffmpeg` conversion succeeds, but the image converter writes its
output to the path with the adjusted `.png` extension while the handler
verifies the `.jpg` path, so the handler reports
`Output file was not created`, removes only the original file, and the
converted `.png` output remains on disk as an orphan: the scratch files
created for the operation are NOT all removed before the error is
surfaced (no identifier reaches it, so it is never cleaned up by the
store's eviction either). -/
theorem process_image_format_mismatch_orphan :
    (processRequest "image" "jpg" "dir/aaaa" "dir/bbbb" "id9"
        ⟨true, "png", true, true, true⟩).response
      = Except.error "Output file was not created" ∧
    (processRequest "image" "jpg" "dir/aaaa" "dir/bbbb" "id9"
        ⟨true, "png", true, true, true⟩).storedId = none ∧
    (processRequest "image" "jpg" "dir/aaaa" "dir/bbbb" "id9"
        ⟨true, "png", true, true, true⟩).disk = ["dir/bbbb.png"] ∧
    adjustOutputPath ("dir/bbbb" ++ getExtensionForFormat "jpg") "png" = "dir/bbbb.png" ∧
    ("dir/bbbb.png" == "dir/bbbb" ++ getExtensionForFormat "jpg") = false :=
  ⟨rfl, rfl, rfl, rfl, by decide⟩

end Fingerprint
